import Mathlib

/-!
Verification of the tscx diagnostic-stream filter (src/tscx/cli.py).

Lines are modelled as lists of characters.  The functions below are
shallow embeddings of the Python code: `strip_ansi_escape_sequences`
embeds the regex substitution in `cli.py:11-26`, `normKey` the path
normalization in `cli.py:147-152`, `mkFilterSet` the filter-set
construction loop in `cli.py:147-157`, and `runFilter` the stateful
line-scanning loop in `cli.py:163-204`.  The model is the POSIX
instantiation: `os.sep` is the slash character and `os.path.basename`
takes the suffix after the last slash.
-/

namespace Tscx

/-- A line of compiler output, as a list of characters. -/
abbrev Line := List Char

/-- Convert a string literal to a `Line`. -/
def str (s : String) : Line := s.data

/-- The ASCII escape character, `\x1B`. -/
def esc : Char := Char.ofNat 27

/-- Second byte of a two-byte escape: the regex class `[@-Z\\-_]`,
i.e. codes 0x40-0x5A and 0x5C-0x5F. -/
def isSingleEsc (c : Char) : Bool :=
  (0x40 ≤ c.toNat && c.toNat ≤ 0x5a) || (0x5c ≤ c.toNat && c.toNat ≤ 0x5f)

/-- CSI parameter byte: the regex class of codes 0x30-0x3F (digit zero
through question mark). -/
def isParamByte (c : Char) : Bool := 0x30 ≤ c.toNat && c.toNat ≤ 0x3f

/-- CSI intermediate byte: the regex class of codes 0x20-0x2F (space
through solidus). -/
def isInterByte (c : Char) : Bool := 0x20 ≤ c.toNat && c.toNat ≤ 0x2f

/-- CSI final byte: the regex class `[@-~]`, codes 0x40-0x7E. -/
def isFinalByte (c : Char) : Bool := 0x40 ≤ c.toNat && c.toNat ≤ 0x7e

/-- Fueled scanner for the substitution performed by
`strip_ansi_escape_sequences`: the pattern is ESC followed by either one
byte of the `isSingleEsc` class, or an opening square bracket, zero or
more `isParamByte`, zero or more `isInterByte` and one `isFinalByte`.
At each position, if the characters starting there match the pattern the
match is removed and scanning resumes after it, otherwise the character
is kept and scanning advances by one.  The three CSI character classes
are pairwise disjoint and disjoint across the alternation, so the greedy
left-to-right scan is exactly the regex behaviour.  The fuel argument
only makes the recursion structural; it never runs out when it starts at
the length of the list. -/
def stripAnsiGo : Nat → Line → Line
  | 0, l => l
  | _ + 1, [] => []
  | fuel + 1, c :: cs =>
    if c = esc then
      match cs with
      | [] => [c]
      | d :: ds =>
        if isSingleEsc d then stripAnsiGo fuel ds
        else if d = '[' then
          match (ds.dropWhile isParamByte).dropWhile isInterByte with
          | e :: es =>
            if isFinalByte e then stripAnsiGo fuel es
            else c :: stripAnsiGo fuel cs
          | [] => c :: stripAnsiGo fuel cs
        else c :: stripAnsiGo fuel cs
    else c :: stripAnsiGo fuel cs

/-- `strip_ansi_escape_sequences` from `cli.py:11-26`. -/
def strip_ansi_escape_sequences (l : Line) : Line := stripAnsiGo l.length l

/-- The whitespace characters of the Python `\s` class and `str.strip()`
(ASCII range): space, tab, newline, vertical tab, form feed, carriage
return. -/
def isPySpace (c : Char) : Bool :=
  c = ' ' || c = '\t' || c = '\n' || c = Char.ofNat 0x0b || c = Char.ofNat 0x0c || c = '\r'

/-- ASCII decimal digit, the `\d` class. -/
def isDigitChar (c : Char) : Bool := '0' ≤ c && c ≤ '9'

/-- The continuation-line test of `cli.py:173-176`:
`sanitized_line.startswith(" ") or re.match(r"^\d+\s+", sanitized_line)`.
Because digits and whitespace are disjoint, `^\d+\s+` matches exactly
when the line starts with at least one digit and the character after the
maximal digit run is whitespace. -/
def isContinuation (l : Line) : Bool :=
  (match l with
   | c :: _ => c = ' '
   | [] => false)
  ||
  (match l with
   | c :: _ =>
     isDigitChar c &&
       (match l.dropWhile isDigitChar with
        | d :: _ => isPySpace d
        | [] => false)
   | [] => false)

/-- Python `str.strip()`: drop ASCII whitespace from both ends. -/
def pyStrip (l : Line) : Line :=
  ((l.dropWhile isPySpace).reverse.dropWhile isPySpace).reverse

/-- The header-token extraction of `cli.py:180-181`:
`re.match(r"^([^:(]+)", sanitized_line)` followed by `.strip()`.
The match succeeds exactly when the line starts with at least one
character other than a colon or an opening parenthesis; the token is the
maximal such run. -/
def extractHeader (l : Line) : Option Line :=
  let tok := l.takeWhile (fun c => !(c = ':' || c = '('))
  if tok.isEmpty then none else some (pyStrip tok)

/-- `os.path.basename` (POSIX): the suffix after the last slash. -/
def basename (p : Line) : Line := (p.reverse.takeWhile (fun c => !(c = '/'))).reverse

/-- The path normalization of `cli.py:147-152`:
`key = f[len(pwd)+1:] if f.startswith(pwd + os.sep) else f[len(pwd):]`
when `f.startswith(pwd)`, else `key = f`; with `os.sep` the slash. -/
def normKey (pwd f : Line) : Line :=
  if pwd.isPrefixOf f then
    if (pwd ++ ['/']).isPrefixOf f then f.drop (pwd.length + 1) else f.drop pwd.length
  else f

/-- The normalized filter arguments: `include_files` (a dict used only
for key membership, modelled as the list of inserted keys) and
`include_paths` from `cli.py:143-157`. -/
structure FilterSet where
  exactFiles : List Line
  pathPrefixes : List Line
  deriving Repr, DecidableEq

/-- The filter-set construction loop of `cli.py:147-157`: each argument
is normalized, then routed to `include_paths` if the file system says it
is a directory (`os.path.isdir`, abstracted as the oracle `isDir`,
queried on the original argument) and to `include_files` otherwise. -/
def mkFilterSet (pwd : Line) (isDir : Line → Bool) (files : List Line) : FilterSet :=
  files.foldl
    (fun acc f =>
      let key := normKey pwd f
      if isDir f then { acc with pathPrefixes := acc.pathPrefixes ++ [key] }
      else { acc with exactFiles := acc.exactFiles ++ [key] })
    ⟨[], []⟩

/-- `show_all = not include_files and not include_paths` (`cli.py:166`). -/
def matchAll (F : FilterSet) : Bool := F.exactFiles.isEmpty && F.pathPrefixes.isEmpty

/-- Python substring test `pat in hay`. -/
def containsSub (pat : Line) (hay : Line) : Bool :=
  pat.isPrefixOf hay ||
    (match hay with
     | [] => false
     | _ :: t => containsSub pat t)

/-- The directory-filter test of `cli.py:184-191`:
`file_path.startswith(path) or f"/{path}/" in f"/{file_path}/"`,
for some entry of `include_paths`. -/
def inSpecifiedPath (paths : List Line) (fp : Line) : Bool :=
  paths.any (fun p => p.isPrefixOf fp || containsSub ('/' :: (p ++ ['/'])) ('/' :: (fp ++ ['/'])))

/-- The header inclusion decision of `cli.py:197`:
`file_name in include_files or in_specified_path or show_all`. -/
def decideShow (F : FilterSet) (fp : Line) : Bool :=
  F.exactFiles.contains (basename fp) || inSpecifiedPath F.pathPrefixes fp || matchAll F

/-- The line-scanning loop of `cli.py:163-204`, with the mutable
`show_continuation` flag threaded as the Boolean argument `sh` and the
`status` accumulator as the Boolean second component of the result
(true exactly when some shown header set `status = 1`).  Each line is
sanitized for classification; the original line is what is emitted.
Lines that are neither continuation-shaped nor yield a header token fall
through both branches and are not emitted. -/
def runFilter (F : FilterSet) : List Line → Bool → List Line × Bool
  | [], _ => ([], false)
  | l :: ls, sh =>
    let san := strip_ansi_escape_sequences l
    if isContinuation san then
      let r := runFilter F ls sh
      (if sh || matchAll F then l :: r.1 else r.1, r.2)
    else
      match extractHeader san with
      | some fp =>
        if decideShow F fp then
          let r := runFilter F ls true
          (l :: r.1, true)
        else runFilter F ls false
      | none => runFilter F ls sh

/-- The lines echoed by one invocation of the filter loop. -/
def filterLines (F : FilterSet) (ls : List Line) : List Line := (runFilter F ls false).1

/-- The aggregate status computed by the filter loop (`cli.py:163,200,204`). -/
def filterStatus (F : FilterSet) (ls : List Line) : Nat :=
  if (runFilter F ls false).2 then 1 else 0

/-- `run_tsc_for_file` after the filter set is built (`cli.py:159-204`):
`none` models a launch failure reported by `execute_tsc` (which returns
status 1 and no result); `some (rc, lines)` models a successful launch
with compiler exit code `rc` and captured output lines.  The code never
reads the compiler exit code, which the model makes literal by ignoring
the first component. -/
def run_tsc_for_file (F : FilterSet) (launch : Option (Nat × List Line)) : Nat :=
  match launch with
  | none => 1
  | some x => filterStatus F x.2

/-- A line that the scanner classifies as a header: not
continuation-shaped and yielding an extractable header token. -/
def isHeaderShaped (l : Line) : Bool :=
  !isContinuation (strip_ansi_escape_sequences l) &&
    (extractHeader (strip_ansi_escape_sequences l)).isSome

/-- A header-shaped line whose extracted path passes the inclusion
decision, i.e. a line that sets `status = 1` when scanned. -/
def selectedHeader (F : FilterSet) (l : Line) : Bool :=
  !isContinuation (strip_ansi_escape_sequences l) &&
    (match extractHeader (strip_ansi_escape_sequences l) with
     | some fp => decideShow F fp
     | none => false)

/-- A line the scanner classifies at all: continuation-shaped or
yielding a header token. -/
def classifiable (l : Line) : Bool :=
  isContinuation (strip_ansi_escape_sequences l) ||
    (extractHeader (strip_ansi_escape_sequences l)).isSome

/-- The continuation lines of the record opened by a header: among the
lines up to but excluding the next header-shaped line, those classified
as continuation lines (inert lines in between belong to no rule and are
never emitted). -/
def recordBody (rest : List Line) : List Line :=
  (rest.takeWhile (fun l => !isHeaderShaped l)).filter
    (fun l => isContinuation (strip_ansi_escape_sequences l))

/-- The remaining input from the next header-shaped line on. -/
def afterRecord (rest : List Line) : List Line :=
  rest.dropWhile (fun l => !isHeaderShaped l)

/-- A demonstration filter set: the single file argument `file1.ts`,
with a file-system oracle that classifies nothing as a directory. -/
def demoF : FilterSet := mkFilterSet (str "/p") (fun _ => false) [str "file1.ts"]

/-- A header line wrapped in ANSI color escape codes (red, then reset). -/
def coloredHdr : Line :=
  ([esc] ++ str "[31m") ++ (str "src/file1.ts(1,2): boom" ++ ([esc] ++ str "[0m"))

/-- The same header line without the escape codes. -/
def plainHdr : Line := str "src/file1.ts(1,2): boom"

/-! ### Helper lemmas -/

lemma nil_isPrefixOf_eq_true (t : Line) : List.isPrefixOf [] t = true := by
  simp [List.isPrefixOf]

lemma isPrefixOf_append_eq_true (l t : Line) : l.isPrefixOf (l ++ t) = true := by
  induction l with
  | nil => simp [List.isPrefixOf]
  | cons a as ih => simp [List.isPrefixOf, ih]

lemma isPrefixOf_refl_eq_true (l : Line) : l.isPrefixOf l = true := by
  have h := isPrefixOf_append_eq_true l []
  rw [List.append_nil] at h
  exact h

lemma length_le_of_isPrefixOf (l₁ l₂ : Line) (h : l₁.isPrefixOf l₂ = true) :
    l₁.length ≤ l₂.length := by
  induction l₁ generalizing l₂ with
  | nil => simp
  | cons a as ih =>
    cases l₂ with
    | nil => simp [List.isPrefixOf] at h
    | cons b bs =>
      simp only [List.isPrefixOf, Bool.and_eq_true] at h
      simpa using ih bs h.2

lemma normKey_self (pwd : Line) : normKey pwd pwd = [] := by
  have h1 : pwd.isPrefixOf pwd = true := isPrefixOf_refl_eq_true pwd
  have h2 : (pwd ++ ['/']).isPrefixOf pwd = false := by
    by_contra hc
    have h3 : (pwd ++ ['/']).isPrefixOf pwd = true := by
      cases h4 : (pwd ++ ['/']).isPrefixOf pwd with
      | true => rfl
      | false => exact absurd h4 hc
    have h5 := length_le_of_isPrefixOf _ _ h3
    simp at h5
  simp [normKey, h1, h2]

lemma mkFilterSet_foldl (pwd : Line) (isDir : Line → Bool) (files : List Line)
    (acc : FilterSet) :
    files.foldl
      (fun acc f =>
        let key := normKey pwd f
        if isDir f then { acc with pathPrefixes := acc.pathPrefixes ++ [key] }
        else { acc with exactFiles := acc.exactFiles ++ [key] })
      acc =
    ⟨acc.exactFiles ++ (files.filter (fun f => !isDir f)).map (normKey pwd),
     acc.pathPrefixes ++ (files.filter isDir).map (normKey pwd)⟩ := by
  induction files generalizing acc with
  | nil => simp
  | cons f fs ih =>
    by_cases hd : isDir f
    · simp [List.foldl_cons, hd, ih, List.filter_cons]
    · simp [List.foldl_cons, hd, ih, List.filter_cons]

lemma mkFilterSet_exactFiles (pwd : Line) (isDir : Line → Bool) (files : List Line) :
    (mkFilterSet pwd isDir files).exactFiles =
      (files.filter (fun f => !isDir f)).map (normKey pwd) := by
  simp [mkFilterSet, mkFilterSet_foldl]

lemma mkFilterSet_pathKeys (pwd : Line) (isDir : Line → Bool) (files : List Line) :
    (mkFilterSet pwd isDir files).pathPrefixes =
      (files.filter isDir).map (normKey pwd) := by
  simp [mkFilterSet, mkFilterSet_foldl]

lemma runFilter_snd_eq_any (F : FilterSet) (ls : List Line) (sh : Bool) :
    (runFilter F ls sh).2 = ls.any (selectedHeader F) := by
  induction ls generalizing sh with
  | nil => rfl
  | cons l ls ih =>
    by_cases hc : isContinuation (strip_ansi_escape_sequences l)
    · simp [runFilter, hc, selectedHeader, ih]
    · cases hfp : extractHeader (strip_ansi_escape_sequences l) with
      | none => simp [runFilter, hc, hfp, selectedHeader, ih]
      | some fp =>
        by_cases hd : decideShow F fp
        · simp [runFilter, hc, hfp, hd, selectedHeader]
        · simp [runFilter, hc, hfp, hd, selectedHeader, ih]

lemma decideShow_of_matchAll (F : FilterSet) (h : matchAll F = true) (fp : Line) :
    decideShow F fp = true := by
  simp [decideShow, h]

lemma runFilter_fst_matchAll (F : FilterSet) (h : matchAll F = true) (ls : List Line)
    (sh : Bool) : (runFilter F ls sh).1 = ls.filter classifiable := by
  induction ls generalizing sh with
  | nil => rfl
  | cons l ls ih =>
    by_cases hc : isContinuation (strip_ansi_escape_sequences l)
    · simp [runFilter, hc, h, classifiable, List.filter_cons, ih]
    · cases hfp : extractHeader (strip_ansi_escape_sequences l) with
      | none => simp [runFilter, hc, hfp, classifiable, List.filter_cons, ih]
      | some fp =>
        simp [runFilter, hc, hfp, decideShow_of_matchAll F h fp, classifiable,
          List.filter_cons, ih]

lemma selectedHeader_eq_isHeaderShaped (F : FilterSet) (h : ∀ fp, decideShow F fp = true)
    (l : Line) : selectedHeader F l = isHeaderShaped l := by
  cases hfp : extractHeader (strip_ansi_escape_sequences l) <;>
    simp [selectedHeader, isHeaderShaped, hfp, h]

lemma filterStatus_eq_one_iff (F : FilterSet) (lines : List Line) :
    filterStatus F lines = 1 ↔ lines.any (selectedHeader F) = true := by
  rw [filterStatus, runFilter_snd_eq_any]
  cases lines.any (selectedHeader F) <;> simp

/-! ### Claims -/

/-- Claim C1, counterexample.  The Path Normalizer does not retain the
basename of a file argument: for the argument `src/file1.ts` (not an
existing directory, working directory not a prefix) the stored key is
the full string `src/file1.ts`, not `file1.ts`; consequently the header
line with extracted path `src/file1.ts`, whose basename equals the
argument's basename, is not selected, contrary to the claim. -/
theorem claim_C1_counterexample :
    (mkFilterSet (str "/pwd") (fun _ => false) [str "src/file1.ts"]).exactFiles =
        [str "src/file1.ts"] ∧
    basename (str "src/file1.ts") = str "file1.ts" ∧
    (mkFilterSet (str "/pwd") (fun _ => false) [str "src/file1.ts"]).exactFiles.contains
        (basename (str "src/file1.ts")) = false ∧
    decideShow (mkFilterSet (str "/pwd") (fun _ => false) [str "src/file1.ts"])
        (str "src/file1.ts") = false := by decide

/-- Claim C1, amended.  A raw filter argument that the file-system
oracle does not classify as a directory contributes its full normalized
key (not its basename) to `exactFiles`; a header line is selected by the
file-filter rule (the `exactFiles` membership test of the inclusion
decision) iff the basename of the header's extracted file path equals
the normalized key of some such argument. -/
theorem claim_C1_file_rule (pwd : Line) (isDir : Line → Bool) (files : List Line)
    (fp : Line) :
    ((mkFilterSet pwd isDir files).exactFiles =
        (files.filter (fun f => !isDir f)).map (normKey pwd)) ∧
    ((mkFilterSet pwd isDir files).exactFiles.contains (basename fp) = true ↔
      ∃ f ∈ files, isDir f = false ∧ normKey pwd f = basename fp) := by
  refine ⟨mkFilterSet_exactFiles pwd isDir files, ?_⟩
  rw [mkFilterSet_exactFiles]
  simp [List.mem_filter]
  constructor
  · rintro ⟨f, ⟨hmem, hnd⟩, hkey⟩
    exact ⟨f, hmem, hnd, hkey⟩
  · rintro ⟨f, hmem, hnd, hkey⟩
    exact ⟨f, ⟨hmem, hnd⟩, hkey⟩

/-- Claim C2, counterexample.  With both filter collections empty
(`matchAll` true), an input consisting of one empty line produces empty
output: the empty line is neither continuation-shaped nor yields a
header token, so it is dropped, contrary to the claim that every input
line is emitted. -/
theorem claim_C2_counterexample :
    matchAll (mkFilterSet (str "/p") (fun _ => false) []) = true ∧
    filterLines (mkFilterSet (str "/p") (fun _ => false) []) [str ""] = [] ∧
    filterLines (mkFilterSet (str "/p") (fun _ => false) []) [str ""] ≠ [str ""] := by decide

/-- Claim C2, amended.  If `matchAll` is true, the filter emits exactly
the classifiable input lines (those that after ANSI stripping are
continuation-shaped or yield a header token), unchanged and in order;
lines that strip to the empty string or start with a colon or an opening
parenthesis without being continuation-shaped are dropped.  The status
is 1 iff at least one header-shaped line exists in the input. -/
theorem claim_C2_matchAll_behaviour (F : FilterSet) (lines : List Line)
    (h : matchAll F = true) :
    filterLines F lines = lines.filter classifiable ∧
    (filterStatus F lines = 1 ↔ ∃ l ∈ lines, isHeaderShaped l = true) := by
  refine ⟨runFilter_fst_matchAll F h lines false, ?_⟩
  rw [filterStatus_eq_one_iff]
  have hsel : ∀ l, selectedHeader F l = isHeaderShaped l :=
    selectedHeader_eq_isHeaderShaped F (decideShow_of_matchAll F h)
  simp [List.any_eq_true, hsel]

/-- Claim C2, witness: the amended theorem applied to the empty filter
set and the three-line scenario from the spec. -/
theorem claim_C2_witness :
    filterLines (mkFilterSet (str "/p") (fun _ => false) [])
        [str "src/file1.ts(10,12): error TS2322", str "  detail",
          str "src/file2.ts(20,5): error TS2345"] =
      ([str "src/file1.ts(10,12): error TS2322", str "  detail",
          str "src/file2.ts(20,5): error TS2345"].filter classifiable) ∧
    (filterStatus (mkFilterSet (str "/p") (fun _ => false) [])
        [str "src/file1.ts(10,12): error TS2322", str "  detail",
          str "src/file2.ts(20,5): error TS2345"] = 1 ↔
      ∃ l ∈ [str "src/file1.ts(10,12): error TS2322", str "  detail",
          str "src/file2.ts(20,5): error TS2345"], isHeaderShaped l = true) :=
  claim_C2_matchAll_behaviour _ _ (by decide)

/-- Claim C3, counterexample.  A line that is neither
continuation-shaped nor yields a header token is dropped even while the
current record is shown: after the shown header `file1.ts: boom`, the
inert line `(x` is not emitted, contrary to the claim that such lines
are emitted iff `showCurrentRecord` or `matchAll` is true. -/
theorem claim_C3_counterexample :
    selectedHeader (mkFilterSet (str "/p") (fun _ => false) [str "file1.ts"])
        (str "file1.ts: boom") = true ∧
    isContinuation (strip_ansi_escape_sequences (str "(x")) = false ∧
    extractHeader (strip_ansi_escape_sequences (str "(x")) = none ∧
    filterLines (mkFilterSet (str "/p") (fun _ => false) [str "file1.ts"])
        [str "file1.ts: boom", str "(x"] = [str "file1.ts: boom"] := by decide

/-- Claim C3, amended.  A line that is neither classifiable as a
continuation line nor yields an extractable header token is never
emitted, regardless of the current show state and of `matchAll`; it
leaves the scan state, the remaining output and the status exactly as if
the line were absent. -/
theorem claim_C3_inert_lines (F : FilterSet) (l : Line) (ls : List Line) (sh : Bool)
    (hc : isContinuation (strip_ansi_escape_sequences l) = false)
    (hn : extractHeader (strip_ansi_escape_sequences l) = none) :
    runFilter F (l :: ls) sh = runFilter F ls sh := by
  simp [runFilter, hc, hn]

/-- Claim C3, witness: the amended theorem applied to the inert line
`(x` with the show state true. -/
theorem claim_C3_witness :
    runFilter (mkFilterSet (str "/p") (fun _ => false) [str "file1.ts"]) [str "(x"] true =
      runFilter (mkFilterSet (str "/p") (fun _ => false) [str "file1.ts"]) [] true :=
  claim_C3_inert_lines _ (str "(x") [] true (by decide) (by decide)

/-- Claim C4, counterexample.  For working directory `/a` and argument
`/ab`, the argument starts with the string `/a` but is neither equal to
it nor followed by a separator; the claim says the key is `/ab`
unmodified, but the code strips the first `length pwd` characters and
produces `b`. -/
theorem claim_C4_counterexample :
    normKey (str "/a") (str "/ab") = str "b" ∧
    normKey (str "/a") (str "/ab") ≠ str "/ab" := by decide

/-- Claim C4, amended.  The normalized key is: the remainder after the
`pwd`-plus-separator prefix when the argument is `pwd`, a slash and a
remainder; the empty string when the argument equals `pwd` exactly; the
argument with its first `length pwd` characters removed whenever it
starts with `pwd` without the following separator (not only when it
equals `pwd`); and the argument unmodified when it does not start with
`pwd`. -/
theorem claim_C4_normKey_cases (pwd f : Line) :
    (∀ rest : Line, f = pwd ++ '/' :: rest → normKey pwd f = rest) ∧
    (f = pwd → normKey pwd f = []) ∧
    (pwd.isPrefixOf f = true → (pwd ++ ['/']).isPrefixOf f = false →
      normKey pwd f = f.drop pwd.length) ∧
    (pwd.isPrefixOf f = false → normKey pwd f = f) := by
  refine ⟨?_, ?_, ?_, ?_⟩
  · rintro rest rfl
    have h1 : pwd.isPrefixOf (pwd ++ '/' :: rest) = true := isPrefixOf_append_eq_true pwd _
    have h4 : pwd ++ '/' :: rest = (pwd ++ ['/']) ++ rest := by simp
    have h2 : (pwd ++ ['/']).isPrefixOf (pwd ++ '/' :: rest) = true := by
      rw [h4]
      exact isPrefixOf_append_eq_true (pwd ++ ['/']) rest
    simp only [normKey, h1, h2, if_true]
    rw [h4]
    have h5 : (pwd ++ ['/']).length = pwd.length + 1 := by simp
    rw [← h5, List.drop_left]
  · intro h
    rw [h]
    exact normKey_self pwd
  · intro h1 h2
    simp [normKey, h1, h2]
  · intro h1
    simp [normKey, h1]

/-- Claim C4, witness: the amended theorem applied to working directory
`/a` and argument `/a/b`, yielding the stripped key `b`. -/
theorem claim_C4_witness : normKey (str "/a") (str "/a/b") = str "b" :=
  (claim_C4_normKey_cases (str "/a") (str "/a/b")).1 (str "b") rfl

/-- Claim C5.  For a non-empty prefix list, the directory rule holds for
an extracted file path iff some entry is a character-prefix of the path
or, slash-delimited, an infix of the slash-delimited path. -/
theorem claim_C5_directory_rule (ps : List Line) (fp : Line) (_hne : ps ≠ []) :
    inSpecifiedPath ps fp = true ↔
      ∃ p ∈ ps, p.isPrefixOf fp = true ∨
        containsSub ('/' :: (p ++ ['/'])) ('/' :: (fp ++ ['/'])) = true := by
  simp [inSpecifiedPath]

/-- Claim C5, witness: under filter path `src`, file path `src/file1.ts`
is included (via the theorem) and `lib/utils.ts` is not. -/
theorem claim_C5_witness :
    inSpecifiedPath [str "src"] (str "src/file1.ts") = true ∧
    inSpecifiedPath [str "src"] (str "lib/utils.ts") = false := by
  refine ⟨?_, by decide⟩
  exact (claim_C5_directory_rule [str "src"] (str "src/file1.ts") (by decide)).mpr
    ⟨str "src", by decide, Or.inl (by decide)⟩

/-- Claim C6.  Once the compiler process was launched, the returned
status is computed solely from the filtered output: it equals
`filterStatus`, is independent of the compiler exit code `rc`, is 1 iff
some header line passed the inclusion decision, and 0 otherwise.  The
selection predicate inspects only the extracted file path, never any
severity text of the line. -/
theorem claim_C6_status_from_output (F : FilterSet) (rc rc' : Nat) (lines : List Line) :
    run_tsc_for_file F (some (rc, lines)) = filterStatus F lines ∧
    run_tsc_for_file F (some (rc, lines)) = run_tsc_for_file F (some (rc', lines)) ∧
    (run_tsc_for_file F (some (rc, lines)) = 1 ↔
      ∃ l ∈ lines, selectedHeader F l = true) ∧
    (run_tsc_for_file F (some (rc, lines)) = 0 ↔
      ¬∃ l ∈ lines, selectedHeader F l = true) := by
  refine ⟨rfl, rfl, ?_, ?_⟩
  · rw [show run_tsc_for_file F (some (rc, lines)) = filterStatus F lines from rfl,
      filterStatus_eq_one_iff]
    simp [List.any_eq_true]
  · rw [show run_tsc_for_file F (some (rc, lines)) = filterStatus F lines from rfl]
    rw [filterStatus, runFilter_snd_eq_any]
    cases hb : lines.any (selectedHeader F) <;> simp [List.any_eq_true] at hb ⊢ <;>
      simpa using hb

lemma extract_none_of_not_shaped (l : Line)
    (hc : isContinuation (strip_ansi_escape_sequences l) = false)
    (hnh : isHeaderShaped l = false) :
    extractHeader (strip_ansi_escape_sequences l) = none := by
  cases hfp : extractHeader (strip_ansi_escape_sequences l) with
  | none => rfl
  | some fp => simp [isHeaderShaped, hc, hfp] at hnh

lemma runFilter_fst_segment (F : FilterSet) (hma : matchAll F = false) (rest : List Line)
    (s : Bool) :
    (runFilter F rest s).1 =
      (if s then recordBody rest else []) ++ (runFilter F (afterRecord rest) s).1 := by
  induction rest with
  | nil => cases s <;> simp [recordBody, afterRecord]
  | cons r rest ih =>
    by_cases hnh : isHeaderShaped r
    · simp [recordBody, afterRecord, List.takeWhile_cons, List.dropWhile_cons, hnh]
    · have hnh' : isHeaderShaped r = false := by
        cases h : isHeaderShaped r with
        | true => exact absurd h hnh
        | false => rfl
      by_cases hc : isContinuation (strip_ansi_escape_sequences r)
      · have hrb : recordBody (r :: rest) = r :: recordBody rest := by
          simp [recordBody, List.takeWhile_cons, hnh', List.filter_cons, hc]
        have har : afterRecord (r :: rest) = afterRecord rest := by
          simp [afterRecord, List.dropWhile_cons, hnh']
        rw [hrb, har] at *
        cases s with
        | true => simp [runFilter, hc, hma, ih]
        | false => simp [runFilter, hc, hma, ih]
      · have hc' : isContinuation (strip_ansi_escape_sequences r) = false := by
          cases h : isContinuation (strip_ansi_escape_sequences r) with
          | true => exact absurd h hc
          | false => rfl
        have hn := extract_none_of_not_shaped r hc' hnh'
        have hrb : recordBody (r :: rest) = recordBody rest := by
          simp [recordBody, List.takeWhile_cons, hnh', List.filter_cons, hc']
        have har : afterRecord (r :: rest) = afterRecord rest := by
          simp [afterRecord, List.dropWhile_cons, hnh']
        rw [hrb, har]
        simp [runFilter, hc', hn, ih]

/-- Claim C7.  With a non-empty filter (no `matchAll`), a header line's
record — the header together with its continuation lines up to but
excluding the next header-shaped line — is emitted in its entirety when
the header passes the inclusion decision and not at all otherwise; the
rest of the output continues at the next header, carrying the decision
as the show state. -/
theorem claim_C7_whole_records (F : FilterSet) (h : Line) (fp : Line) (rest : List Line)
    (sh : Bool) (hma : matchAll F = false)
    (hc : isContinuation (strip_ansi_escape_sequences h) = false)
    (hfp : extractHeader (strip_ansi_escape_sequences h) = some fp) :
    (runFilter F (h :: rest) sh).1 =
      (if decideShow F fp then h :: recordBody rest else []) ++
        (runFilter F (afterRecord rest) (decideShow F fp)).1 := by
  by_cases hd : decideShow F fp
  · have h1 : (runFilter F (h :: rest) sh).1 = h :: (runFilter F rest true).1 := by
      simp [runFilter, hc, hfp, hd]
    rw [h1, runFilter_fst_segment F hma rest true, hd]
    simp
  · have hd' : decideShow F fp = false := by
      cases h2 : decideShow F fp with
      | true => exact absurd h2 hd
      | false => rfl
    have h1 : (runFilter F (h :: rest) sh).1 = (runFilter F rest false).1 := by
      simp [runFilter, hc, hfp, hd']
    rw [h1, runFilter_fst_segment F hma rest false, hd']
    simp

/-- Claim C7, witness: the whole-record theorem applied to the shown
header `src/file1.ts(10,12): error TS2322` followed by one continuation
line and a further (hidden) header. -/
theorem claim_C7_witness :
    (runFilter demoF
        [str "src/file1.ts(10,12): error TS2322", str "  detail",
          str "src/file2.ts(20,5): error TS2345"] false).1 =
      (if decideShow demoF (str "src/file1.ts") then
          str "src/file1.ts(10,12): error TS2322" ::
            recordBody [str "  detail", str "src/file2.ts(20,5): error TS2345"]
        else []) ++
        (runFilter demoF
          (afterRecord [str "  detail", str "src/file2.ts(20,5): error TS2345"])
          (decideShow demoF (str "src/file1.ts"))).1 :=
  claim_C7_whole_records demoF (str "src/file1.ts(10,12): error TS2322")
    (str "src/file1.ts") [str "  detail", str "src/file2.ts(20,5): error TS2345"] false
    (by decide) (by decide) (by decide)

/-- Claim C8.  Classification and header extraction read only the
ANSI-stripped copy of a line, while the emitted line is the original:
two lines with the same stripped form drive the filter identically — the
outputs agree except that when the line itself is emitted each run emits
its own original form — and produce the same status. -/
theorem claim_C8_sanitized_match (F : FilterSet) (l l' : Line) (ls : List Line) (sh : Bool)
    (hsan : strip_ansi_escape_sequences l = strip_ansi_escape_sequences l') :
    ((runFilter F (l :: ls) sh).1 = (runFilter F (l' :: ls) sh).1 ∨
      ∃ t, (runFilter F (l :: ls) sh).1 = l :: t ∧
        (runFilter F (l' :: ls) sh).1 = l' :: t) ∧
    (runFilter F (l :: ls) sh).2 = (runFilter F (l' :: ls) sh).2 := by
  by_cases hc : isContinuation (strip_ansi_escape_sequences l')
  · constructor
    · by_cases he : (sh || matchAll F) = true
      · right
        exact ⟨(runFilter F ls sh).1, by simp [runFilter, hsan, hc, he],
          by simp [runFilter, hc, he]⟩
      · left
        simp [runFilter, hsan, hc, he]
    · simp [runFilter, hsan, hc]
  · cases hfp : extractHeader (strip_ansi_escape_sequences l') with
    | some fp =>
      by_cases hd : decideShow F fp
      · constructor
        · right
          exact ⟨(runFilter F ls true).1, by simp [runFilter, hsan, hc, hfp, hd],
            by simp [runFilter, hc, hfp, hd]⟩
        · simp [runFilter, hsan, hc, hfp, hd]
      · have hd' : decideShow F fp = false := by
          cases h2 : decideShow F fp with
          | true => exact absurd h2 hd
          | false => rfl
        constructor
        · left
          simp [runFilter, hsan, hc, hfp, hd']
        · simp [runFilter, hsan, hc, hfp, hd']
    | none =>
      constructor
      · left
        simp [runFilter, hsan, hc, hfp]
      · simp [runFilter, hsan, hc, hfp]

/-- Claim C8, witness: the theorem applied to a header line wrapped in
color escape codes and its plain form, under the demonstration filter;
both strip to the same content, so the colored run emits the colored
original. -/
theorem claim_C8_witness :
    ((runFilter demoF [coloredHdr] false).1 = (runFilter demoF [plainHdr] false).1 ∨
      ∃ t, (runFilter demoF [coloredHdr] false).1 = coloredHdr :: t ∧
        (runFilter demoF [plainHdr] false).1 = plainHdr :: t) ∧
    (runFilter demoF [coloredHdr] false).2 = (runFilter demoF [plainHdr] false).2 :=
  claim_C8_sanitized_match demoF coloredHdr plainHdr [] false (by decide)

lemma runFilter_refilter (F : FilterSet) (ls : List Line) (sh : Bool)
    (hsel : ∀ l ∈ ls, isHeaderShaped l = true → selectedHeader F l = true) :
    runFilter F ((runFilter F ls sh).1) sh = runFilter F ls sh := by
  induction ls generalizing sh with
  | nil => rfl
  | cons l ls ih =>
    have hsel' : ∀ x ∈ ls, isHeaderShaped x = true → selectedHeader F x = true :=
      fun x hx => hsel x (List.mem_cons_of_mem l hx)
    by_cases hc : isContinuation (strip_ansi_escape_sequences l)
    · by_cases he : (sh || matchAll F) = true
      · have h1 : runFilter F (l :: ls) sh =
            (l :: (runFilter F ls sh).1, (runFilter F ls sh).2) := by
          simp [runFilter, hc, he]
        rw [h1]
        have h2 : runFilter F (l :: (runFilter F ls sh).1) sh =
            (l :: (runFilter F ((runFilter F ls sh).1) sh).1,
              (runFilter F ((runFilter F ls sh).1) sh).2) := by
          simp [runFilter, hc, he]
        rw [h2, ih sh hsel']
      · have he' : (sh || matchAll F) = false := by
          cases h2 : (sh || matchAll F) with
          | true => exact absurd h2 he
          | false => rfl
        have h1 : runFilter F (l :: ls) sh = runFilter F ls sh := by
          simp [runFilter, hc, he']
        rw [h1, ih sh hsel']
    · cases hfp : extractHeader (strip_ansi_escape_sequences l) with
      | some fp =>
        have hc' : isContinuation (strip_ansi_escape_sequences l) = false := by
          cases h2 : isContinuation (strip_ansi_escape_sequences l) with
          | true => exact absurd h2 hc
          | false => rfl
        have hshaped : isHeaderShaped l = true := by
          simp [isHeaderShaped, hc', hfp]
        have hd : decideShow F fp = true := by
          have h3 := hsel l (List.mem_cons_self l ls) hshaped
          simpa [selectedHeader, hc', hfp] using h3
        have h1 : runFilter F (l :: ls) sh = (l :: (runFilter F ls true).1, true) := by
          simp [runFilter, hc', hfp, hd]
        rw [h1]
        have h2 : runFilter F (l :: (runFilter F ls true).1) sh =
            (l :: (runFilter F ((runFilter F ls true).1) true).1, true) := by
          simp [runFilter, hc', hfp, hd]
        rw [h2, ih true hsel']
      | none =>
        have hc' : isContinuation (strip_ansi_escape_sequences l) = false := by
          cases h2 : isContinuation (strip_ansi_escape_sequences l) with
          | true => exact absurd h2 hc
          | false => rfl
        have h1 : runFilter F (l :: ls) sh = runFilter F ls sh := by
          simp [runFilter, hc', hfp]
        rw [h1, ih sh hsel']

/-- Claim C9.  If every header-shaped line of the input passes the
inclusion decision (the filtering shows every record), then re-filtering
the filtered output with the same filter set reproduces it exactly, with
the same status. -/
theorem claim_C9_idempotent (F : FilterSet) (ls : List Line)
    (hsel : ∀ l ∈ ls, isHeaderShaped l = true → selectedHeader F l = true) :
    filterLines F (filterLines F ls) = filterLines F ls ∧
    filterStatus F (filterLines F ls) = filterStatus F ls := by
  have h := runFilter_refilter F ls false hsel
  constructor
  · show (runFilter F ((runFilter F ls false).1) false).1 = (runFilter F ls false).1
    rw [h]
  · show (if (runFilter F ((runFilter F ls false).1) false).2 then 1 else 0) =
      (if (runFilter F ls false).2 then 1 else 0)
    rw [h]

/-- Claim C9, witness: the idempotence theorem applied to the
demonstration filter and an input whose only header is selected. -/
theorem claim_C9_witness :
    filterLines demoF
        (filterLines demoF [str "src/file1.ts(10,12): error TS2322", str "  detail"]) =
      filterLines demoF [str "src/file1.ts(10,12): error TS2322", str "  detail"] ∧
    filterStatus demoF
        (filterLines demoF [str "src/file1.ts(10,12): error TS2322", str "  detail"]) =
      filterStatus demoF [str "src/file1.ts(10,12): error TS2322", str "  detail"] :=
  claim_C9_idempotent demoF [str "src/file1.ts(10,12): error TS2322", str "  detail"]
    (by decide)

/-- Claim C10.  When some filter argument equals the working directory
and the file system classifies it as a directory, its normalized key is
the empty string, which joins `pathPrefixes`; `matchAll` is then false,
yet the empty prefix makes the inclusion decision accept every extracted
file path, and the status is 1 exactly when some header-shaped line
exists in the output. -/
theorem claim_C10_pwd_argument (pwd : Line) (isDir : Line → Bool) (files : List Line)
    (lines : List Line) (hmem : pwd ∈ files) (hdir : isDir pwd = true) :
    normKey pwd pwd = [] ∧
    ([] : Line) ∈ (mkFilterSet pwd isDir files).pathPrefixes ∧
    matchAll (mkFilterSet pwd isDir files) = false ∧
    (∀ fp : Line, decideShow (mkFilterSet pwd isDir files) fp = true) ∧
    (filterStatus (mkFilterSet pwd isDir files) lines = 1 ↔
      ∃ l ∈ lines, isHeaderShaped l = true) := by
  have hkey := normKey_self pwd
  have hmem2 : ([] : Line) ∈ (mkFilterSet pwd isDir files).pathPrefixes := by
    rw [mkFilterSet_pathKeys]
    exact List.mem_map.mpr ⟨pwd, List.mem_filter.mpr ⟨hmem, hdir⟩, hkey⟩
  have hne : (mkFilterSet pwd isDir files).pathPrefixes ≠ [] := List.ne_nil_of_mem hmem2
  have hma : matchAll (mkFilterSet pwd isDir files) = false := by
    simp [matchAll, List.isEmpty_iff]
    intro _
    exact hne
  have hall : ∀ fp : Line, decideShow (mkFilterSet pwd isDir files) fp = true := by
    intro fp
    have hin : inSpecifiedPath (mkFilterSet pwd isDir files).pathPrefixes fp = true := by
      rw [inSpecifiedPath, List.any_eq_true]
      exact ⟨[], hmem2, by simp [nil_isPrefixOf_eq_true]⟩
    simp [decideShow, hin]
  refine ⟨hkey, hmem2, hma, hall, ?_⟩
  rw [filterStatus_eq_one_iff]
  simp [List.any_eq_true, selectedHeader_eq_isHeaderShaped _ hall]

/-- Claim C10, witness: the theorem applied to the working directory
`/p` supplied as the only argument, over the spec's three-line input. -/
theorem claim_C10_witness :
    normKey (str "/p") (str "/p") = [] ∧
    ([] : Line) ∈ (mkFilterSet (str "/p") (fun f => f = str "/p") [str "/p"]).pathPrefixes ∧
    matchAll (mkFilterSet (str "/p") (fun f => f = str "/p") [str "/p"]) = false ∧
    (∀ fp : Line,
      decideShow (mkFilterSet (str "/p") (fun f => f = str "/p") [str "/p"]) fp = true) ∧
    (filterStatus (mkFilterSet (str "/p") (fun f => f = str "/p") [str "/p"])
        [str "src/file1.ts(10,12): error TS2322", str "  detail",
          str "src/file2.ts(20,5): error TS2345"] = 1 ↔
      ∃ l ∈ [str "src/file1.ts(10,12): error TS2322", str "  detail",
          str "src/file2.ts(20,5): error TS2345"], isHeaderShaped l = true) :=
  claim_C10_pwd_argument (str "/p") (fun f => f = str "/p") [str "/p"]
    [str "src/file1.ts(10,12): error TS2322", str "  detail",
      str "src/file2.ts(20,5): error TS2345"] (by decide) (by decide)

end Tscx
